import Mathlib

/-!
Verification of the medical-book monitor's state-diffing and classification
engine, shallowly embedded from the Python sources.

Embedding conventions:
* `src/monitor.py` : `EmployeeState`, `StateManager.update_employees`,
  `StateManager.save` / `StateManager.load`, `MedicalMonitor._classify_employees`,
  `MedicalMonitor._should_send_daily_report`, `MedicalMonitor.check_medical_records`.
* `src/google_sheets.py` : `GoogleSheetsClient.normalize_employee_data` and its
  helpers `_extract_name`, `_extract_days_info`, `_extract_position`,
  `_looks_like_date`.
* Python `dict`s keyed by strings are embedded as association lists
  `List (String × _)` in insertion order; Python sets used only for membership
  are embedded as `List String` with `∈`.
* `datetime.now()` values are embedded as explicit parameters: an abstract
  timestamp (`Nat`) for the tracked-state timestamps, and a `DateTimeM`
  record (date index, hour, minute) where the code inspects calendar fields.
* Python stdlib functions on strings (`str.strip`, `str.lower`,
  `str.isdigit`, `str.replace`, `int(...)`) are embedded as the `py*`
  helpers below; `int(raw)` can raise, which is embedded as `Option Int`
  (a `none` propagates to the caller's `try/except`, skipping the row).
-/

/-! ### Data model (src/monitor.py, `EmployeeState`; src/google_sheets.py,
normalized employee dicts) -/

/-- A raw spreadsheet row: column name → cell value, in column order
(`get_worksheet_data` builds such a dict per row). -/
abbrev RawRecord := List (String × String)

/-- A normalized employee dict as produced by
`GoogleSheetsClient.normalize_employee_data` (src/google_sheets.py 101-108). -/
structure EmployeeData where
  name : String
  position : String
  days_left : Int
  has_medical_book : Bool
  raw_days_value : String
  original_data : RawRecord
deriving DecidableEq, Repr

/-- `EmployeeState` from src/monitor.py 10-19.  Timestamps are abstract
`Nat` instants (`datetime.now()` values). -/
structure EmployeeState where
  name : String
  position : String
  days_left : Int
  has_medical_book : Bool
  last_seen : Nat
  first_seen : Nat
  key : String
deriving DecidableEq, Repr

/-- Python's `str(bool)`: `"True"` / `"False"`, as interpolated into the key
f-string. -/
def pyBoolStr (b : Bool) : String := if b then "True" else "False"

/-- The identity key `f"{name}_{days_left}_{has_medical_book}"`
(src/monitor.py 29). -/
def mkKey (name : String) (days_left : Int) (has_medical_book : Bool) : String :=
  name ++ "_" ++ toString days_left ++ "_" ++ pyBoolStr has_medical_book

/-- `EmployeeState.from_employee_data` (src/monitor.py 21-40), with the
`datetime.now()` instant passed explicitly. -/
def fromEmployeeData (d : EmployeeData) (now : Nat) : EmployeeState :=
  { name := d.name
    position := d.position
    days_left := d.days_left
    has_medical_book := d.has_medical_book
    last_seen := now
    first_seen := now
    key := mkKey d.name d.days_left d.has_medical_book }

/-- The identity key of a normalized employee dict. -/
def keyOf (d : EmployeeData) : String := mkKey d.name d.days_left d.has_medical_book

/-! ### Classifier (`MedicalMonitor._classify_employees`, src/monitor.py 242-256) -/

/-- `_classify_employees`: returns `(expired, critical, no_medical)` in input
order.  Branches exactly as the Python `if/elif` chain: no medical book first,
then `days_left < 0`, then `days_left <= 30`; anything else lands in no
bucket. -/
def classify_employees : List EmployeeData → List EmployeeData × List EmployeeData × List EmployeeData
  | [] => ([], [], [])
  | e :: rest =>
    let (expired, critical, no_medical) := classify_employees rest
    if e.has_medical_book = false then (expired, critical, e :: no_medical)
    else if e.days_left < 0 then (e :: expired, critical, no_medical)
    else if e.days_left ≤ 30 then (expired, e :: critical, no_medical)
    else (expired, critical, no_medical)

/-- The three buckets are the evident filters of the input list. -/
theorem classify_employees_eq_filters (emps : List EmployeeData) :
    classify_employees emps =
      (emps.filter (fun e => e.has_medical_book && decide (e.days_left < 0)),
       emps.filter (fun e => e.has_medical_book && decide (0 ≤ e.days_left) && decide (e.days_left ≤ 30)),
       emps.filter (fun e => !e.has_medical_book)) := by
  induction emps with
  | nil => rfl
  | cons e rest ih =>
    simp only [classify_employees, ih, List.filter_cons]
    by_cases hb : e.has_medical_book <;>
      by_cases h0 : e.days_left < 0 <;>
        by_cases h30 : e.days_left ≤ 30 <;>
          by_cases hz : (0:Int) ≤ e.days_left <;>
            first
              | omega
              | simp [hb, h0, h30, hz]

/-- C1: an entity without a medical book is always classified into the
`no_medical` bucket, and never into `expired` or `critical`, whatever its
`days_left`; the no-document check is the first branch and takes
precedence. -/
theorem no_document_precedence (emps : List EmployeeData) (e : EmployeeData)
    (hmem : e ∈ emps) (hbook : e.has_medical_book = false) :
    e ∈ (classify_employees emps).2.2 ∧
      e ∉ (classify_employees emps).1 ∧ e ∉ (classify_employees emps).2.1 := by
  rw [classify_employees_eq_filters]
  refine ⟨List.mem_filter.mpr ⟨hmem, by simp [hbook]⟩, ?_, ?_⟩ <;>
    intro h <;> simpa [hbook] using (List.mem_filter.mp h).2

/-- Witness for C1: a concrete bookless employee with positive `days_left`
still lands in `no_medical` only. -/
theorem no_document_precedence_witness :
    (⟨"A", "", 5, false, "", []⟩ : EmployeeData) ∈
        (classify_employees [⟨"A", "", 5, false, "", []⟩]).2.2 ∧
      (⟨"A", "", 5, false, "", []⟩ : EmployeeData) ∉
        (classify_employees [⟨"A", "", 5, false, "", []⟩]).1 ∧
      (⟨"A", "", 5, false, "", []⟩ : EmployeeData) ∉
        (classify_employees [⟨"A", "", 5, false, "", []⟩]).2.1 :=
  no_document_precedence [⟨"A", "", 5, false, "", []⟩] ⟨"A", "", 5, false, "", []⟩
    (by decide) (by decide)

/-- C2 counterexample: the claim's boundary list says `daysRemaining = 0`
gives `none`, but the code (`elif emp['days_left'] <= 30` after
`days_left < 0` fails) puts a `days_left = 0` employee in the `critical`
bucket. -/
theorem classify_at_zero_is_critical :
    (⟨"X", "", 0, true, "0", []⟩ : EmployeeData) ∈
      (classify_employees [⟨"X", "", 0, true, "0", []⟩]).2.1 := by decide

/-- C2 (amended): for entities with a medical book, `expired` iff
`days_left < 0`, `critical` iff `0 ≤ days_left ≤ 30`, else no bucket;
boundary: 30 → critical, 31 → none, -1 → expired, 0 → critical. -/
theorem classify_days_buckets :
    (∀ (emps : List EmployeeData) (e : EmployeeData), e ∈ emps → e.has_medical_book = true →
      ((e ∈ (classify_employees emps).1 ↔ e.days_left < 0) ∧
       (e ∈ (classify_employees emps).2.1 ↔ 0 ≤ e.days_left ∧ e.days_left ≤ 30) ∧
       e ∉ (classify_employees emps).2.2)) ∧
    (⟨"X", "", 30, true, "", []⟩ : EmployeeData) ∈
        (classify_employees [⟨"X", "", 30, true, "", []⟩]).2.1 ∧
    classify_employees [(⟨"X", "", 31, true, "", []⟩ : EmployeeData)] = ([], [], []) ∧
    (⟨"X", "", -1, true, "", []⟩ : EmployeeData) ∈
        (classify_employees [⟨"X", "", -1, true, "", []⟩]).1 ∧
    (⟨"X", "", 0, true, "", []⟩ : EmployeeData) ∈
        (classify_employees [⟨"X", "", 0, true, "", []⟩]).2.1 := by
  refine ⟨?_, by decide, by decide, by decide, by decide⟩
  intro emps e hmem hbook
  rw [classify_employees_eq_filters]
  refine ⟨?_, ?_, ?_⟩
  · simp [List.mem_filter, hmem, hbook]
  · simp [List.mem_filter, hmem, hbook]
  · intro h
    simpa [hbook] using (List.mem_filter.mp h).2

/-! ### State store / diff engine (`StateManager.update_employees`,
src/monitor.py 103-141) -/

/-- The in-memory store `self.employees : Dict[str, EmployeeState]`,
embedded as an association list in insertion order. -/
abbrev Store := List (String × EmployeeState)

/-- The in-place update of an existing entry (src/monitor.py 121-127):
refresh `last_seen`; overwrite `position` only when the stored one is empty
and the incoming one is not. -/
def updateExisting (existing incoming : EmployeeState) : EmployeeState :=
  { existing with
    last_seen := incoming.last_seen
    position :=
      if existing.position = "" ∧ incoming.position ≠ "" then incoming.position
      else existing.position }

/-- The `for emp_data in current_employees` loop of `update_employees`
(src/monitor.py 116-131): threads the store, the `current_keys` set (as a
list) and the `new_employees` accumulator. -/
def updLoop (now : Nat) : List EmployeeData → Store → List String → List EmployeeState →
    Store × List String × List EmployeeState
  | [], store, currentKeys, newEmps => (store, currentKeys, newEmps)
  | d :: rest, store, currentKeys, newEmps =>
    let es := fromEmployeeData d now
    if store.any (fun p => p.1 = es.key) then
      updLoop now rest
        (store.map fun p => if p.1 = es.key then (p.1, updateExisting p.2 es) else p)
        (currentKeys ++ [es.key]) newEmps
    else
      updLoop now rest (store ++ [(es.key, es)]) (currentKeys ++ [es.key])
        (newEmps ++ [es])

/-- `StateManager.update_employees` (src/monitor.py 103-141): returns
`(new_employees, removed_employees, store afterward)`.  Removal (lines
133-139) is embedded as a filter over the post-loop store: the keys kept are
exactly those in `current_keys`, which preserves the set-level semantics of
`set(self.employees.keys()) - current_keys` followed by `del`. -/
def update_employees (store : Store) (current : List EmployeeData) (now : Nat) :
    List EmployeeState × List EmployeeState × Store :=
  let r := updLoop now current store [] []
  let removed := (r.1.filter fun p => !decide (p.1 ∈ r.2.1)).map Prod.snd
  let store' := r.1.filter fun p => decide (p.1 ∈ r.2.1)
  (r.2.2, removed, store')

theorem key_fromEmployeeData (d : EmployeeData) (now : Nat) :
    (fromEmployeeData d now).key = keyOf d := rfl

/-- The `current_keys` accumulator ends as the keys of the input, in order. -/
theorem updLoop_currentKeys (now : Nat) (cur : List EmployeeData) :
    ∀ (store : Store) (ck : List String) (ne : List EmployeeState),
      (updLoop now cur store ck ne).2.1 = ck ++ cur.map keyOf := by
  induction cur with
  | nil => intro store ck ne; simp [updLoop]
  | cons d rest ih =>
    intro store ck ne
    simp only [updLoop, List.map_cons]
    split <;> rw [ih] <;> simp [key_fromEmployeeData]

/-- The membership test `key in self.employees` (src/monitor.py 121). -/
theorem any_key_mem (store : Store) (k : String) :
    (store.any fun p => p.1 = k) = true ↔ k ∈ store.map Prod.fst := by
  simp [List.any_eq_true, List.mem_map]

/-- Updating an existing entry in place never changes the dict's key set. -/
theorem touched_store_keys (store : Store) (k : String) (es : EmployeeState) :
    ((store.map fun p => if p.1 = k then (p.1, updateExisting p.2 es) else p).map
        Prod.fst) = store.map Prod.fst := by
  rw [List.map_map]
  apply List.map_congr_left
  intro p _
  by_cases hpk : p.1 = k <;> simp [hpk]

/-- Keys present in the store after the update loop: the old keys plus the
keys of the processed entities. -/
theorem updLoop_store_keys (now : Nat) (cur : List EmployeeData) :
    ∀ (store : Store) (ck : List String) (ne : List EmployeeState) (k : String),
      k ∈ (updLoop now cur store ck ne).1.map Prod.fst ↔
        k ∈ store.map Prod.fst ∨ k ∈ cur.map keyOf := by
  induction cur with
  | nil => intro store ck ne k; simp [updLoop]
  | cons d rest ih =>
    intro store ck ne k
    simp only [updLoop]
    split
    case isTrue h =>
      rw [ih, touched_store_keys]
      have hmem : keyOf d ∈ store.map Prod.fst := by
        rw [← key_fromEmployeeData d now, ← any_key_mem]
        simpa using h
      simp only [List.map_cons, List.mem_cons]
      constructor
      · tauto
      · rintro (hs | hd | hr)
        · exact Or.inl hs
        · exact Or.inl (hd ▸ hmem)
        · exact Or.inr hr
    case isFalse h =>
      rw [ih]
      simp only [List.map_append, List.mem_append, List.map_cons, List.map_nil,
        List.mem_singleton, List.mem_cons, key_fromEmployeeData]
      tauto

/-- Entries whose key is outside a superset `K` of the processed keys are
left untouched by the update loop. -/
theorem updLoop_untouched_filter (now : Nat) (cur : List EmployeeData) :
    ∀ (store : Store) (ck : List String) (ne : List EmployeeState) (K : List String),
      (∀ d ∈ cur, keyOf d ∈ K) →
      (updLoop now cur store ck ne).1.filter (fun p => !decide (p.1 ∈ K)) =
        store.filter (fun p => !decide (p.1 ∈ K)) := by
  induction cur with
  | nil => intro store ck ne K _; simp [updLoop]
  | cons d rest ih =>
    intro store ck ne K hK
    have hkd : keyOf d ∈ K := hK d (List.mem_cons_self d rest)
    simp only [updLoop]
    split
    case isTrue h =>
      rw [ih _ _ _ K (fun d' hd' => hK d' (List.mem_cons_of_mem d hd'))]
      rw [List.filter_map]
      have hcomp :
          ((fun p : String × EmployeeState => !decide (p.1 ∈ K)) ∘
            (fun p => if p.1 = (fromEmployeeData d now).key
              then (p.1, updateExisting p.2 (fromEmployeeData d now)) else p)) =
          fun p : String × EmployeeState => !decide (p.1 ∈ K) := by
        funext p
        by_cases hpk : p.1 = (fromEmployeeData d now).key <;> simp [hpk]
      rw [hcomp]
      conv_rhs => rw [← List.map_id (store.filter fun p => !decide (p.1 ∈ K))]
      apply List.map_congr_left
      intro p hp
      have hnotin : p.1 ∉ K := by simpa using (List.mem_filter.mp hp).2
      have hne : p.1 ≠ (fromEmployeeData d now).key := by
        intro he
        exact hnotin (by rw [he, key_fromEmployeeData]; exact hkd)
      simp [hne]
    case isFalse h =>
      rw [ih _ _ _ K (fun d' hd' => hK d' (List.mem_cons_of_mem d hd'))]
      rw [List.filter_append]
      simp [List.filter_cons, key_fromEmployeeData, hkd]

/-- Keys of the `new_employees` accumulator after the loop: the previous ones
plus every processed key that was not yet a store key. -/
theorem updLoop_added_keys (now : Nat) (cur : List EmployeeData) :
    ∀ (store : Store) (ck : List String) (ne : List EmployeeState) (k : String),
      k ∈ (updLoop now cur store ck ne).2.2.map EmployeeState.key ↔
        k ∈ ne.map EmployeeState.key ∨
          (k ∈ cur.map keyOf ∧ k ∉ store.map Prod.fst) := by
  induction cur with
  | nil => intro store ck ne k; simp [updLoop]
  | cons d rest ih =>
    intro store ck ne k
    simp only [updLoop]
    split
    case isTrue h =>
      rw [ih, touched_store_keys]
      have hmem : keyOf d ∈ store.map Prod.fst := by
        rw [← key_fromEmployeeData d now, ← any_key_mem]
        simpa using h
      simp only [List.map_cons, List.mem_cons]
      by_cases hk : k = keyOf d
      · subst hk; simp [hmem]
      · simp [hk]
    case isFalse h =>
      rw [ih]
      have hnmem : keyOf d ∉ store.map Prod.fst := by
        rw [← key_fromEmployeeData d now, ← any_key_mem]
        simpa using h
      simp only [List.map_append, List.mem_append, List.map_cons, List.map_nil,
        List.mem_cons, List.mem_singleton, List.not_mem_nil, or_false,
        key_fromEmployeeData]
      by_cases hk : k = keyOf d
      · subst hk; simp [hnmem]
      · simp [hk]

/-- Keys of the returned `new_employees` list: exactly the current keys that
were not yet store keys. -/
theorem update_employees_added_keys (store : Store) (current : List EmployeeData)
    (now : Nat) (k : String) :
    k ∈ (update_employees store current now).1.map EmployeeState.key ↔
      k ∈ current.map keyOf ∧ k ∉ store.map Prod.fst := by
  simp only [update_employees]
  rw [updLoop_added_keys]
  simp

/-- The returned `removed_employees` list: exactly the previously stored
states whose key is absent from the current key set. -/
theorem update_employees_removed_eq (store : Store) (current : List EmployeeData)
    (now : Nat) :
    (update_employees store current now).2.1 =
      (store.filter fun p => !decide (p.1 ∈ current.map keyOf)).map Prod.snd := by
  simp only [update_employees]
  rw [updLoop_currentKeys, List.nil_append,
    updLoop_untouched_filter now current store [] [] (current.map keyOf)
      (fun d hd => List.mem_map_of_mem keyOf hd)]

/-- Key set of the store after `update_employees`: exactly the current key
set. -/
theorem update_employees_store_keys (store : Store) (current : List EmployeeData)
    (now : Nat) (k : String) :
    k ∈ (update_employees store current now).2.2.map Prod.fst ↔
      k ∈ current.map keyOf := by
  simp only [update_employees]
  rw [updLoop_currentKeys, List.nil_append]
  constructor
  · intro hk
    rcases List.mem_map.mp hk with ⟨p, hp, rfl⟩
    simpa using (List.mem_filter.mp hp).2
  · intro hk
    have hkstore : k ∈ (updLoop now current store [] []).1.map Prod.fst :=
      (updLoop_store_keys now current store [] [] k).mpr (Or.inr hk)
    rcases List.mem_map.mp hkstore with ⟨p, hp, rfl⟩
    exact List.mem_map.mpr ⟨p, List.mem_filter.mpr ⟨hp, by simpa using hk⟩, rfl⟩

/-- C3: for every prior store and every current snapshot, `update_employees`
returns as `added` exactly the states whose keys are current but were not
store keys, as `removed` exactly the stored states whose keys are not
current, and leaves the store's key set equal to the current key set;
concretely, a store with keys `{A_1_True, B_1_True}` updated with entities
producing keys `{B_1_True, C_1_True}` yields `added = [C]`, `removed = [A]`
and a store holding exactly `{B_1_True, C_1_True}`. -/
theorem update_employees_diff :
    (∀ (store : Store) (current : List EmployeeData) (now : Nat),
      (∀ k, k ∈ (update_employees store current now).1.map EmployeeState.key ↔
          k ∈ current.map keyOf ∧ k ∉ store.map Prod.fst) ∧
      (update_employees store current now).2.1 =
        (store.filter fun p => !decide (p.1 ∈ current.map keyOf)).map Prod.snd ∧
      (∀ k, k ∈ (update_employees store current now).2.2.map Prod.fst ↔
          k ∈ current.map keyOf)) ∧
    (update_employees
        [("A_1_True", ⟨"A", "", 1, true, 0, 0, "A_1_True"⟩),
         ("B_1_True", ⟨"B", "", 1, true, 0, 0, "B_1_True"⟩)]
        [⟨"B", "", 1, true, "", []⟩, ⟨"C", "", 1, true, "", []⟩] 5).1.map
        EmployeeState.key = ["C_1_True"] ∧
    (update_employees
        [("A_1_True", ⟨"A", "", 1, true, 0, 0, "A_1_True"⟩),
         ("B_1_True", ⟨"B", "", 1, true, 0, 0, "B_1_True"⟩)]
        [⟨"B", "", 1, true, "", []⟩, ⟨"C", "", 1, true, "", []⟩] 5).2.1 =
      [⟨"A", "", 1, true, 0, 0, "A_1_True"⟩] ∧
    (update_employees
        [("A_1_True", ⟨"A", "", 1, true, 0, 0, "A_1_True"⟩),
         ("B_1_True", ⟨"B", "", 1, true, 0, 0, "B_1_True"⟩)]
        [⟨"B", "", 1, true, "", []⟩, ⟨"C", "", 1, true, "", []⟩] 5).2.2.map
        Prod.fst = ["B_1_True", "C_1_True"] := by
  refine ⟨fun store current now =>
    ⟨update_employees_added_keys store current now,
     update_employees_removed_eq store current now,
     update_employees_store_keys store current now⟩, by decide, by decide, by decide⟩

/-- C4: running `update_employees` twice with the same entity list yields
empty `added` and `removed` lists the second time: the first call brings the
store's key set to the current key set, a fixed point for that input. -/
theorem update_employees_idempotent (store : Store) (current : List EmployeeData)
    (now1 now2 : Nat) :
    (update_employees (update_employees store current now1).2.2 current now2).1 = [] ∧
    (update_employees (update_employees store current now1).2.2 current now2).2.1 = [] := by
  constructor
  · have h : ∀ k, k ∉ (update_employees (update_employees store current now1).2.2
        current now2).1.map EmployeeState.key := by
      intro k hk
      rcases (update_employees_added_keys _ current now2 k).mp hk with ⟨hck, hnot⟩
      exact hnot ((update_employees_store_keys store current now1 k).mpr hck)
    have hmap := List.eq_nil_iff_forall_not_mem.mpr h
    exact List.map_eq_nil_iff.mp hmap
  · rw [update_employees_removed_eq]
    have h : (update_employees store current now1).2.2.filter
        (fun p => !decide (p.1 ∈ current.map keyOf)) = [] := by
      apply List.filter_eq_nil_iff.mpr
      intro p hp
      have : p.1 ∈ current.map keyOf :=
        (update_employees_store_keys store current now1 p.1).mp
          (List.mem_map_of_mem Prod.fst hp)
      simp [this]
    rw [h, List.map_nil]

/-- What one pass of the update loop may do to a retained entry: every field
except `position` and `last_seen` is fixed, `last_seen` ends at `now`, and
`position` either stays put or was empty and got overwritten with a non-empty
value. -/
def FrameUpd (now : Nat) (old new : EmployeeState) : Prop :=
  new.name = old.name ∧ new.days_left = old.days_left ∧
  new.has_medical_book = old.has_medical_book ∧ new.first_seen = old.first_seen ∧
  new.key = old.key ∧ new.last_seen = now ∧
  (new.position = old.position ∨ (old.position = "" ∧ new.position ≠ ""))

theorem frameUpd_updateExisting (now : Nat) (old es : EmployeeState)
    (hes : es.last_seen = now) : FrameUpd now old (updateExisting old es) := by
  refine ⟨rfl, rfl, rfl, rfl, rfl, hes, ?_⟩
  simp only [updateExisting]
  split
  case isTrue h => exact Or.inr ⟨h.1, h.2⟩
  case isFalse h => exact Or.inl rfl

theorem frameUpd_trans (now : Nat) {a b c : EmployeeState}
    (h1 : FrameUpd now a b) (h2 : FrameUpd now b c) : FrameUpd now a c := by
  obtain ⟨n1, d1, m1, f1, k1, l1, p1⟩ := h1
  obtain ⟨n2, d2, m2, f2, k2, l2, p2⟩ := h2
  refine ⟨n2.trans n1, d2.trans d1, m2.trans m1, f2.trans f1, k2.trans k1, l2, ?_⟩
  rcases p1 with hp1 | ⟨he1, hn1⟩
  · rcases p2 with hp2 | ⟨he2, hn2⟩
    · exact Or.inl (hp2.trans hp1)
    · exact Or.inr ⟨hp1 ▸ he2, hn2⟩
  · rcases p2 with hp2 | ⟨he2, hn2⟩
    · exact Or.inr ⟨he1, hp2 ▸ hn1⟩
    · exact absurd he2 hn1

/-- Frame property of the update loop: a store entry whose key is among the
processed keys survives with only a `FrameUpd` change; an entry whose key is
not processed survives unchanged. -/
theorem updLoop_frame (now : Nat) (cur : List EmployeeData) :
    ∀ (store : Store) (ck : List String) (ne : List EmployeeState)
      (p : String × EmployeeState), p ∈ store →
      (p.1 ∈ cur.map keyOf →
        ∃ s', (p.1, s') ∈ (updLoop now cur store ck ne).1 ∧ FrameUpd now p.2 s') ∧
      (p.1 ∉ cur.map keyOf → p ∈ (updLoop now cur store ck ne).1) := by
  induction cur with
  | nil =>
    intro store ck ne p hp
    exact ⟨fun h => absurd h (by simp), fun _ => by simpa [updLoop] using hp⟩
  | cons d rest ih =>
    intro store ck ne p hp
    simp only [updLoop]
    split
    case isTrue h =>
      by_cases hpk : p.1 = (fromEmployeeData d now).key
      · -- this entry is updated in place at this step
        have hq : (p.1, updateExisting p.2 (fromEmployeeData d now)) ∈
            (store.map fun q => if q.1 = (fromEmployeeData d now).key
              then (q.1, updateExisting q.2 (fromEmployeeData d now)) else q) := by
          have := List.mem_map_of_mem
            (fun q : String × EmployeeState =>
              if q.1 = (fromEmployeeData d now).key
                then (q.1, updateExisting q.2 (fromEmployeeData d now)) else q) hp
          simpa [hpk] using this
        have hfr : FrameUpd now p.2 (updateExisting p.2 (fromEmployeeData d now)) :=
          frameUpd_updateExisting now p.2 (fromEmployeeData d now) rfl
        obtain ⟨hin, hout⟩ := ih _ (ck ++ [(fromEmployeeData d now).key]) ne _ hq
        constructor
        · intro _
          by_cases hrest : p.1 ∈ rest.map keyOf
          · obtain ⟨s', hs', hfr'⟩ := hin hrest
            exact ⟨s', hs', frameUpd_trans now hfr hfr'⟩
          · exact ⟨updateExisting p.2 (fromEmployeeData d now), hout hrest, hfr⟩
        · intro hnot
          exact absurd (by simp [key_fromEmployeeData] at hpk ⊢; exact Or.inl hpk) hnot
      · -- untouched at this step
        have hq : p ∈ (store.map fun q => if q.1 = (fromEmployeeData d now).key
            then (q.1, updateExisting q.2 (fromEmployeeData d now)) else q) := by
          have := List.mem_map_of_mem
            (fun q : String × EmployeeState =>
              if q.1 = (fromEmployeeData d now).key
                then (q.1, updateExisting q.2 (fromEmployeeData d now)) else q) hp
          simpa [hpk] using this
        obtain ⟨hin, hout⟩ := ih _ (ck ++ [(fromEmployeeData d now).key]) ne _ hq
        have hkd : p.1 ≠ keyOf d := by rwa [key_fromEmployeeData] at hpk
        constructor
        · intro hmem
          rw [List.map_cons] at hmem
          rcases List.mem_cons.mp hmem with heq | hrest
          · exact absurd heq hkd
          · exact hin hrest
        · intro hnot
          rw [List.map_cons] at hnot
          exact hout fun hrest => hnot (List.mem_cons.mpr (Or.inr hrest))
    case isFalse h =>
      have hpk : p.1 ≠ (fromEmployeeData d now).key := by
        intro he
        have : (store.any fun q => q.1 = (fromEmployeeData d now).key) = true :=
          List.any_eq_true.mpr ⟨p, hp, by simpa using he⟩
        exact h this
      have hq : p ∈ store ++ [((fromEmployeeData d now).key, fromEmployeeData d now)] :=
        List.mem_append_left _ hp
      obtain ⟨hin, hout⟩ := ih _ (ck ++ [(fromEmployeeData d now).key]) (ne ++ [fromEmployeeData d now]) _ hq
      have hkd : p.1 ≠ keyOf d := by rwa [key_fromEmployeeData] at hpk
      constructor
      · intro hmem
        rw [List.map_cons] at hmem
        rcases List.mem_cons.mp hmem with heq | hrest
        · exact absurd heq hkd
        · exact hin hrest
      · intro hnot
        rw [List.map_cons] at hnot
        exact hout fun hrest => hnot (List.mem_cons.mpr (Or.inr hrest))

/-- C9: a stored entry whose key is still present in the current snapshot is
kept, with `last_seen` refreshed to `now`, `position` overwritten only when
the stored one was empty and the incoming one non-empty, and `name`,
`days_left`, `has_medical_book`, `first_seen` and `key` unchanged. -/
theorem update_employees_frame (store : Store) (current : List EmployeeData)
    (now : Nat) (p : String × EmployeeState) (hp : p ∈ store)
    (hk : p.1 ∈ current.map keyOf) :
    ∃ s', (p.1, s') ∈ (update_employees store current now).2.2 ∧
      s'.name = p.2.name ∧ s'.days_left = p.2.days_left ∧
      s'.has_medical_book = p.2.has_medical_book ∧
      s'.first_seen = p.2.first_seen ∧ s'.key = p.2.key ∧ s'.last_seen = now ∧
      (s'.position = p.2.position ∨ (p.2.position = "" ∧ s'.position ≠ "")) := by
  obtain ⟨hin, _⟩ := updLoop_frame now current store [] [] p hp
  obtain ⟨s', hs', hn, hd, hm, hf, hkey, hl, hpos⟩ := hin hk
  refine ⟨s', ?_, hn, hd, hm, hf, hkey, hl, hpos⟩
  simp only [update_employees]
  rw [updLoop_currentKeys, List.nil_append] at *
  exact List.mem_filter.mpr ⟨hs', by simpa using hk⟩

/-- Witness for C9: a stored entry with an empty position and key `A_1_True`,
refreshed by a current entity with the same key and position `mgr`: all
rigid fields survive, `last_seen` becomes 7, and the position is filled in. -/
theorem update_employees_frame_witness :
    ∃ s', ("A_1_True", s') ∈
        (update_employees [("A_1_True", ⟨"A", "", 1, true, 0, 0, "A_1_True"⟩)]
          [⟨"A", "mgr", 1, true, "", []⟩] 7).2.2 ∧
      s'.name = "A" ∧ s'.days_left = 1 ∧ s'.has_medical_book = true ∧
      s'.first_seen = 0 ∧ s'.key = "A_1_True" ∧ s'.last_seen = 7 ∧
      (s'.position = "" ∨ ("" = "" ∧ s'.position ≠ "")) :=
  update_employees_frame [("A_1_True", ⟨"A", "", 1, true, 0, 0, "A_1_True"⟩)]
    [⟨"A", "mgr", 1, true, "", []⟩] 7 ("A_1_True", ⟨"A", "", 1, true, 0, 0, "A_1_True"⟩)
    (by decide) (by decide)

/-! ### Persistence (`StateManager.save` 75-101 / `StateManager.load` 52-73,
src/monitor.py).  The JSON file contents are embedded structurally; the
stdlib `datetime.isoformat` / `datetime.fromisoformat` pair is external
(Python standard library, not repository code), so it enters as a parameter
pair `iso` / `fromiso` together with its documented round-trip contract
`fromiso (iso t) = some t`; `fromisoformat` raising on an unparsable string
is the `none` case, which `load`'s `except` maps to a failure result. -/

/-- One value of the saved `employees` mapping: `asdict(employee)` with both
timestamps replaced by their `isoformat()` strings (src/monitor.py 80-85). -/
structure SerEmployee where
  name : String
  position : String
  days_left : Int
  has_medical_book : Bool
  last_seen : String
  first_seen : String
  key : String
deriving DecidableEq, Repr

/-- The saved `state_data` object (src/monitor.py 87-91). -/
structure StateData where
  monitor_name : String
  last_update : String
  employees : List (String × SerEmployee)
deriving DecidableEq, Repr

/-- `StateManager.save`: serialize every tracked state, stamping the file
with the save instant. -/
def save (iso : Nat → String) (monitorName : String) (saveTime : Nat)
    (store : Store) : StateData :=
  { monitor_name := monitorName
    last_update := iso saveTime
    employees := store.map fun p =>
      (p.1,
       { name := p.2.name
         position := p.2.position
         days_left := p.2.days_left
         has_medical_book := p.2.has_medical_book
         last_seen := iso p.2.last_seen
         first_seen := iso p.2.first_seen
         key := p.2.key }) }

/-- The `for key, emp_data in data.get('employees', {}).items()` loop of
`StateManager.load` (src/monitor.py 61-65): parse both timestamps back and
rebuild each `EmployeeState`; a parse failure raises, which aborts the load
(the `none` case). -/
def loadEntries (fromiso : String → Option Nat) :
    List (String × SerEmployee) → Option Store
  | [] => some []
  | p :: rest =>
    match fromiso p.2.last_seen, fromiso p.2.first_seen, loadEntries fromiso rest with
    | some ls, some fs, some r =>
      some ((p.1,
        { name := p.2.name
          position := p.2.position
          days_left := p.2.days_left
          has_medical_book := p.2.has_medical_book
          last_seen := ls
          first_seen := fs
          key := p.2.key }) :: r)
    | _, _, _ => none

/-- `StateManager.load` on a present, parsed state file. -/
def load (fromiso : String → Option Nat) (data : StateData) : Option Store :=
  loadEntries fromiso data.employees

/-- C5: `save()` then `load()` on an unmodified store restores an equal
store: the same keys and field values, and timestamps exactly equal (hence
in particular equal to the second), for any timestamp serialization
satisfying the stdlib `fromisoformat (isoformat t) = t` contract. -/
theorem save_load_roundtrip (iso : Nat → String) (fromiso : String → Option Nat)
    (hinv : ∀ t, fromiso (iso t) = some t) (monitorName : String) (saveTime : Nat)
    (store : Store) :
    load fromiso (save iso monitorName saveTime store) = some store := by
  induction store with
  | nil => rfl
  | cons p rest ih =>
    simp only [save, load, List.map_cons, loadEntries, hinv]
    simp only [save, load] at ih
    rw [ih]

/-- Witness for C5: a concrete two-entry store round-trips through a
serialization satisfying the contract (unary-notation timestamps). -/
theorem save_load_roundtrip_witness :
    load (fun s => some s.length)
      (save (fun t => String.mk (List.replicate t 'x')) "m" 3
        [("A_1_True", ⟨"A", "", 1, true, 2, 1, "A_1_True"⟩),
         ("B_-4_False", ⟨"B", "boss", -4, false, 2, 2, "B_-4_False"⟩)]) =
      some [("A_1_True", ⟨"A", "", 1, true, 2, 1, "A_1_True"⟩),
            ("B_-4_False", ⟨"B", "boss", -4, false, 2, 2, "B_-4_False"⟩)] :=
  save_load_roundtrip (fun t => String.mk (List.replicate t 'x'))
    (fun s => some s.length) (fun t => by simp [String.length]) "m" 3 _

/-! ### Report cadence (`MedicalMonitor._should_send_daily_report`,
src/monitor.py 258-272) -/

/-- A clock time (hour, minute): the config's `report_time_obj`
(`"09:00"` parses to hour 9, minute 0 via the stdlib, src/config.py 22-30). -/
structure TimeHM where
  hour : Nat
  minute : Nat
deriving DecidableEq, Repr

/-- A `datetime.now()` as far as this module inspects it: calendar date
(abstract day index), hour and minute. -/
structure DateTimeM where
  date : Nat
  hour : Nat
  minute : Nat
deriving DecidableEq, Repr

/-- `_should_send_daily_report`: skip if already reported today
(`self.last_daily_report == current_date`), otherwise fire exactly on the
configured hour and minute. -/
def should_send_daily_report (lastReport : Option Nat) (now : DateTimeM)
    (reportTime : TimeHM) : Bool :=
  if lastReport = some now.date then false
  else if now.hour = reportTime.hour ∧ now.minute = reportTime.minute then true
  else false

/-- All 24 × 60 clock times of a day, minute by minute. -/
def hmTicks : List TimeHM :=
  (List.range 24).flatMap fun h => (List.range 60).map fun m => ⟨h, m⟩

/-- A simulated day of one `datetime.now()` per minute on day `d`. -/
def dayTicks (d : Nat) : List DateTimeM :=
  hmTicks.map fun t => ⟨d, t.hour, t.minute⟩

set_option maxRecDepth 10000 in
/-- C6: the due policy returns false whenever the last report date equals the
current date, and otherwise fires exactly on an hour-and-minute match; over a
full simulated day of per-minute ticks with configured time 09:00 and a last
report date different from today it fires exactly once — at the 09:00 tick —
and with the last report date equal to today it stays silent even at 09:00. -/
theorem daily_report_cadence :
    (∀ (lastReport : Option Nat) (now : DateTimeM) (rt : TimeHM),
      lastReport = some now.date →
      should_send_daily_report lastReport now rt = false) ∧
    (∀ (lastReport : Option Nat) (now : DateTimeM) (rt : TimeHM),
      lastReport ≠ some now.date →
      (should_send_daily_report lastReport now rt = true ↔
        now.hour = rt.hour ∧ now.minute = rt.minute)) ∧
    (∀ (lastReport : Option Nat) (d : Nat), lastReport ≠ some d →
      ((dayTicks d).filter fun t => should_send_daily_report lastReport t ⟨9, 0⟩).length = 1 ∧
      ∀ t ∈ dayTicks d,
        (should_send_daily_report lastReport t ⟨9, 0⟩ = true ↔
          t.hour = 9 ∧ t.minute = 0)) ∧
    (∀ d : Nat, should_send_daily_report (some d) ⟨d, 9, 0⟩ ⟨9, 0⟩ = false) := by
  have hmatch : ∀ (lastReport : Option Nat) (now : DateTimeM) (rt : TimeHM),
      lastReport ≠ some now.date →
      (should_send_daily_report lastReport now rt = true ↔
        now.hour = rt.hour ∧ now.minute = rt.minute) := by
    intro lr now rt hne
    simp only [should_send_daily_report]
    rw [if_neg hne]
    split
    case isTrue h => simpa using h
    case isFalse h => simpa using h
  refine ⟨?_, hmatch, ?_, ?_⟩
  · intro lr now rt h
    simp [should_send_daily_report, h]
  · intro lr d hne
    have hpt : ∀ t : TimeHM,
        should_send_daily_report lr ⟨d, t.hour, t.minute⟩ ⟨9, 0⟩ =
          (decide (t.hour = 9) && decide (t.minute = 0)) := by
      intro t
      simp only [should_send_daily_report]
      rw [if_neg hne]
      split
      case isTrue h => simp [h.1, h.2]
      case isFalse h =>
        rcases not_and_or.mp h with h' | h' <;> simp [h']
    constructor
    · unfold dayTicks
      rw [List.filter_map]
      have := List.filter_congr (l := hmTicks)
        (p := (fun t : DateTimeM => should_send_daily_report lr t ⟨9, 0⟩) ∘
          (fun t : TimeHM => (⟨d, t.hour, t.minute⟩ : DateTimeM)))
        (q := fun t : TimeHM => decide (t.hour = 9) && decide (t.minute = 0))
        (fun t _ => hpt t)
      rw [this, List.length_map]
      decide
    · intro t ht
      rcases List.mem_map.mp ht with ⟨hm, _, rfl⟩
      exact hmatch lr ⟨d, hm.hour, hm.minute⟩ ⟨9, 0⟩ hne
  · intro d
    simp [should_send_daily_report]

/-! ### Record normalizer (`GoogleSheetsClient`, src/google_sheets.py 86-218).
Python string primitives are embedded structurally on the character lists
underlying `String`, on the alphabets this code actually compares (ASCII plus
Cyrillic), so that concrete rows evaluate inside the kernel. -/

/-- Python `str.strip()`: whitespace off both ends. -/
def pyStrip (s : String) : String :=
  ⟨((s.data.dropWhile Char.isWhitespace).reverse.dropWhile Char.isWhitespace).reverse⟩

/-- Python `str.isdigit()` on ASCII digits: non-empty and all digits. -/
def pyIsDigit (s : String) : Bool := !s.data.isEmpty && s.data.all Char.isDigit

/-- Python `str.lower()` per character (ASCII and Cyrillic А-Я). -/
def pyLowerChar (c : Char) : Char :=
  if 'A' ≤ c ∧ c ≤ 'Z' then Char.ofNat (c.toNat + 32)
  else if 'А' ≤ c ∧ c ≤ 'Я' then Char.ofNat (c.toNat + 32)
  else if c = 'Ё' then 'ё'
  else c

/-- Python `str.lower()`. -/
def pyLower (s : String) : String := ⟨s.data.map pyLowerChar⟩

/-- Python `str.replace(c, '', 1)` on the character list: drop the first
occurrence of `c`. -/
def removeFirstChar : List Char → Char → List Char
  | [], _ => []
  | x :: xs, c => if x = c then xs else x :: removeFirstChar xs c

/-- Python `str.replace(c, '', 1)`. -/
def pyReplaceFirst (s : String) (c : Char) : String := ⟨removeFirstChar s.data c⟩

/-- Python `str.lstrip(c)`. -/
def pyLStrip (s : String) (c : Char) : String := ⟨s.data.dropWhile (· = c)⟩

/-- Python `str.replace(c, '')`: drop every occurrence of `c`. -/
def pyRemoveAll (s : String) (c : Char) : String := ⟨s.data.filter (· ≠ c)⟩

/-- Decimal value of an all-digit character list (how Python's `int` reads
digit strings). -/
def digitsToNat (l : List Char) : Nat :=
  l.foldl (fun n c => n * 10 + (c.toNat - '0'.toNat)) 0

/-- Python `int(raw)` on the strings that can reach it here: an optional
leading minus followed by decimal digits; anything else raises a
`ValueError`, the `none` case (e.g. `"5-"`, whose misplaced minus is removed
by `replace('-', '', 1)` before the `isdigit` test but still breaks `int`). -/
def pyToInt? (s : String) : Option Int :=
  match s.data with
  | '-' :: rest =>
    if !rest.isEmpty && rest.all Char.isDigit then some (-(digitsToNat rest : Int))
    else none
  | l =>
    if !l.isEmpty && l.all Char.isDigit then some (digitsToNat l : Int)
    else none

/-- Dict access `record[k]` guarded by `k in record`. -/
def pyGet (r : RawRecord) (k : String) : Option String :=
  (r.find? fun p => p.1 = k).map Prod.snd

/-- Python `value.split(sep)` for a one-character separator. -/
def splitCharAux (c : Char) : List Char → List Char → List (List Char)
  | [], acc => [acc.reverse]
  | x :: xs, acc =>
    if x = c then acc.reverse :: splitCharAux c xs []
    else splitCharAux c xs (x :: acc)

/-- `_looks_like_date` (src/google_sheets.py 191-199): the value contains one
of `.`, `/`, `-`, splits on it into three parts, with 1-2 character day and
month slots and a 2- or 4-character year slot. -/
def looks_like_date (value : String) : Bool :=
  ['.', '/', '-'].any fun sep =>
    value.data.contains sep &&
      match splitCharAux sep value.data [] with
      | [p0, p1, p2] =>
        (p0.length == 1 || p0.length == 2) && (p1.length == 1 || p1.length == 2) &&
          (p2.length == 2 || p2.length == 4)
      | _ => false

/-- The result dict of `_extract_days_info` (src/google_sheets.py 173-177). -/
structure DaysInfo where
  raw_value : String
  days_left : Int
  has_medical_book : Bool
deriving DecidableEq, Repr

/-- Priority columns scanned for the days value (src/google_sheets.py 140). -/
def days_fields : List String := ["Срок", "срок", "Days", "days", "Дней", "Осталось"]

/-- The "absent" tokens compared case-insensitively (src/google_sheets.py 160). -/
def absent_tokens : List String := ["нет", "н", "no", "none", ""]

/-- The value-interpretation chain of `_extract_days_info`
(src/google_sheets.py 159-171): absent token → no book and `-999`; integer →
parsed days; date-shaped → days computed from the date; anything else → no
book and `-999`. -/
def interpretRawDays (calcDays : String → Int) (raw : String) : Option DaysInfo :=
  if raw = "" || absent_tokens.contains (pyLower raw) then
    some ⟨raw, -999, false⟩
  else if pyIsDigit (pyReplaceFirst raw '-') then
    (pyToInt? raw).map fun n => ⟨raw, n, true⟩
  else if looks_like_date raw then
    some ⟨raw, calcDays raw, true⟩
  else
    some ⟨raw, -999, false⟩

/-- `_extract_days_info` (src/google_sheets.py 138-177): find the raw value
in a priority field, else in any field holding a number-shaped value, then
interpret it.  `calcDays` stands in for `_calculate_days_from_date` (lines
201-218), which reads `datetime.now()` and so is a parameter of the
embedding; `none` is the `ValueError` of `int(raw_value)`, which the
caller's `try/except` turns into a skipped row. -/
def extract_days_info (calcDays : String → Int) (record : RawRecord) : Option DaysInfo :=
  let fieldRaw := (days_fields.findSome? fun f =>
    (pyGet record f).bind fun v => if v = "" then none else some (pyStrip v)).getD ""
  let raw :=
    if fieldRaw = "" then
      ((record.findSome? fun p =>
        if p.2 ≠ "" && pyIsDigit (pyReplaceFirst (pyLStrip (pyStrip p.2) '-') '.')
        then some (pyStrip p.2) else none).getD "")
    else fieldRaw
  interpretRawDays calcDays raw

/-- Priority columns scanned for the name (src/google_sheets.py 120). -/
def name_fields : List String := ["ФИО", "Имя", "Сотрудник", "Name", "медкнижка"]

/-- Columns excluded by the fallback name scan (src/google_sheets.py 130). -/
def name_deny_fields : List String := ["Срок", "Days", "Дней", "Осталось"]

/-- `_extract_name` (src/google_sheets.py 118-136). -/
def extract_name (record : RawRecord) : String :=
  (name_fields.findSome? fun f =>
    (pyGet record f).bind fun v =>
      if v = "" then none
      else
        let value := pyStrip v
        if value ≠ "" && !looks_like_date value && !pyIsDigit (pyRemoveAll value '.')
        then some value else none).getD
  ((record.findSome? fun p =>
      if p.2 ≠ "" && !name_deny_fields.contains p.1 && !looks_like_date p.2 &&
          !pyIsDigit (pyRemoveAll p.2 '.') && decide (3 < p.2.length) &&
          decide (p.2.length < 50)
      then some p.2 else none).getD "Неизвестный сотрудник")

/-- Priority columns scanned for the position (src/google_sheets.py 181). -/
def position_fields : List String := ["Должность", "Position", "Role", "Должн"]

/-- `_extract_position` (src/google_sheets.py 179-189). -/
def extract_position (record : RawRecord) : String :=
  (position_fields.findSome? fun f =>
    (pyGet record f).bind fun v =>
      if v = "" then none
      else
        let value := pyStrip v
        if value ≠ "" && decide (value.length < 50) then some value else none).getD ""

/-- `normalize_employee_data` (src/google_sheets.py 86-116): per-row
extraction; a row whose extraction raises is skipped. -/
def normalize_employee_data (calcDays : String → Int) (raw_data : List RawRecord) :
    List EmployeeData :=
  raw_data.filterMap fun record =>
    (extract_days_info calcDays record).map fun di =>
      { name := extract_name record
        position := extract_position record
        days_left := di.days_left
        has_medical_book := di.has_medical_book
        raw_days_value := di.raw_value
        original_data := record }

theorem interpretRawDays_sentinel (calcDays : String → Int) (raw : String)
    (info : DaysInfo) (hinfo : interpretRawDays calcDays raw = some info)
    (hbook : info.has_medical_book = false) : info.days_left = -999 := by
  unfold interpretRawDays at hinfo
  split at hinfo
  · cases hinfo
    rfl
  · split at hinfo
    · rcases Option.map_eq_some'.mp hinfo with ⟨n, _, heq⟩
      subst heq
      simp at hbook
    · split at hinfo
      · cases hinfo
        simp at hbook
      · cases hinfo
        rfl

/-- C10: every branch of `_extract_days_info` that clears `has_medical_book`
also sets the `-999` sentinel, so `has_medical_book = false` implies
`days_left = -999` for every raw record; the converse fails, since a raw
`"-999"` parses as an integer and yields `days_left = -999` together with
`has_medical_book = true`. -/
theorem days_info_sentinel :
    (∀ (calcDays : String → Int) (record : RawRecord) (info : DaysInfo),
      extract_days_info calcDays record = some info →
      info.has_medical_book = false → info.days_left = -999) ∧
    (∀ calcDays : String → Int,
      extract_days_info calcDays [("Срок", "-999")] =
        some ⟨"-999", -999, true⟩) := by
  constructor
  · intro calcDays record info hinfo hbook
    exact interpretRawDays_sentinel calcDays _ info hinfo hbook
  · intro calcDays
    rfl

/-! ### The check run (`MedicalMonitor.check_medical_records`,
src/monitor.py 162-240).  Telegram delivery is external; what matters to the
claims is which messages are composed, so messages are embedded by kind and
payload: the new-employee notification (`_send_new_employee_notification`,
lines 274-297), the daily report (`_send_daily_report`, lines 299-353) and
the short data-refreshed notice (`send_data_updated_message`, lines
355-364). -/

/-- A message handed to the Telegram collaborator, by kind and payload. -/
inductive Message where
  | newEmployeeNotice (emps : List EmployeeState)
  | dailyReport (expired critical no_medical : List EmployeeData)
  | dataUpdated
deriving DecidableEq, Repr

/-- The dict returned by `check_medical_records`: either of the two error
dicts (lines 184, 190) or the success dict (lines 199-207). -/
inductive CheckResult where
  | noTableData
  | noEmployeeData
  | success (total : Nat) (expired critical no_medical : List EmployeeData)
      (new_employees removed_employees : List EmployeeState)
deriving DecidableEq, Repr

/-- Everything one run changes or emits: the returned result, the store, the
`last_daily_report` marker, the composed messages in order, and whether
`save()` was reached. -/
structure CheckOutcome where
  result : CheckResult
  store : Store
  last_daily_report : Option Nat
  messages : List Message
  saved : Bool
deriving DecidableEq, Repr

/-- `check_medical_records` (src/monitor.py 162-240), over an already fetched
row list.  `now` is the single run instant (line 176); `nowTs` is the same
instant as the abstract timestamp used for tracked states.  At hour 0 a
detected addition is only logged (lines 212-216) and a due daily report is
replaced by the short notice (lines 222-224). -/
def check_medical_records (calcDays : String → Int)
    (send_new_employee_notifications : Bool) (report_time : TimeHM)
    (raw_data : List RawRecord) (store : Store) (last_daily_report : Option Nat)
    (now : DateTimeM) (nowTs : Nat) (force_daily_report : Option Bool) :
    CheckOutcome :=
  if raw_data = [] then
    ⟨.noTableData, store, last_daily_report, [], false⟩
  else
    let employees := normalize_employee_data calcDays raw_data
    if employees = [] then
      ⟨.noEmployeeData, store, last_daily_report, [], false⟩
    else
      let buckets := classify_employees employees
      let upd := update_employees store employees nowTs
      let newMsgs :=
        if send_new_employee_notifications && !upd.1.isEmpty then
          if now.hour = 0 then [] else [Message.newEmployeeNotice upd.1]
        else []
      let due := force_daily_report = some true ∨
        (force_daily_report = none ∧
          should_send_daily_report last_daily_report now report_time = true)
      let reportMsgs :=
        if due then
          [if now.hour = 0 then Message.dataUpdated
           else Message.dailyReport buckets.1 buckets.2.1 buckets.2.2]
        else []
      ⟨.success employees.length buckets.1 buckets.2.1 buckets.2.2 upd.1 upd.2.1,
       upd.2.2,
       if due then some now.date else last_daily_report,
       newMsgs ++ reportMsgs, true⟩

/-- C8: a run whose fetch yields no rows returns the "no data" error result
and skips everything else: the store is untouched (the diff engine is never
reached), no message is composed, the report marker is untouched and
`save()` is not called. -/
theorem empty_fetch_skips_run (calcDays : String → Int) (sendNew : Bool)
    (rt : TimeHM) (raw_data : List RawRecord) (store : Store)
    (lastDaily : Option Nat) (now : DateTimeM) (nowTs : Nat)
    (force : Option Bool) (hempty : raw_data = []) :
    check_medical_records calcDays sendNew rt raw_data store lastDaily now nowTs
        force =
      ⟨.noTableData, store, lastDaily, [], false⟩ := by
  subst hempty
  rfl

/-- Witness for C8: a concrete empty-fetch run leaves a one-entry store, the
report marker and everything else untouched. -/
theorem empty_fetch_skips_run_witness :
    check_medical_records (fun _ => 0) true ⟨9, 0⟩ []
        [("A_1_True", ⟨"A", "", 1, true, 0, 0, "A_1_True"⟩)] (some 4) ⟨5, 10, 0⟩ 100
        none =
      ⟨.noTableData, [("A_1_True", ⟨"A", "", 1, true, 0, 0, "A_1_True"⟩)], some 4,
        [], false⟩ :=
  empty_fetch_skips_run (fun _ => 0) true ⟨9, 0⟩ []
    [("A_1_True", ⟨"A", "", 1, true, 0, 0, "A_1_True"⟩)] (some 4) ⟨5, 10, 0⟩ 100
    none rfl

theorem check_midnight_message_shapes (calcDays : String → Int) (sendNew : Bool)
    (rt : TimeHM) (raw_data : List RawRecord) (store : Store)
    (lastDaily : Option Nat) (now : DateTimeM) (nowTs : Nat) (force : Option Bool)
    (hmid : now.hour = 0) :
    (check_medical_records calcDays sendNew rt raw_data store lastDaily now nowTs
        force).messages = [] ∨
    (check_medical_records calcDays sendNew rt raw_data store lastDaily now nowTs
        force).messages = [Message.dataUpdated] := by
  simp only [check_medical_records]
  split
  · left; rfl
  · split
    · left; rfl
    · dsimp only
      split <;> split <;> simp [hmid]

theorem check_midnight_due_messages (calcDays : String → Int) (sendNew : Bool)
    (rt : TimeHM) (raw_data : List RawRecord) (store : Store)
    (lastDaily : Option Nat) (now : DateTimeM) (nowTs : Nat) (force : Option Bool)
    (hmid : now.hour = 0) (hraw : raw_data ≠ [])
    (hnorm : normalize_employee_data calcDays raw_data ≠ [])
    (hdue : force = some true ∨ (force = none ∧
      should_send_daily_report lastDaily now rt = true)) :
    (check_medical_records calcDays sendNew rt raw_data store lastDaily now nowTs
        force).messages = [Message.dataUpdated] := by
  simp only [check_medical_records]
  rw [if_neg hraw, if_neg hnorm]
  dsimp only
  rw [if_pos hdue]
  simp [hmid]

/-- C7 counterexample: a midnight run (hour 0, minute 30) that detects a new
employee and has no due report sends nothing at all — no "data refreshed"
notice replaces the suppressed new-employee list, contrary to the claim. -/
theorem midnight_addition_sends_nothing :
    (check_medical_records (fun _ => 0) true ⟨9, 0⟩
        [[("ФИО", "Ivanov"), ("Срок", "20")]] [] none ⟨5, 0, 30⟩ 100
        (some false)).messages = [] ∧
    (check_medical_records (fun _ => 0) true ⟨9, 0⟩
        [[("ФИО", "Ivanov"), ("Срок", "20")]] [] none ⟨5, 0, 30⟩ 100
        (some false)).result =
      .success 1 [] [⟨"Ivanov", "", 20, true, "20", [("ФИО", "Ivanov"), ("Срок", "20")]⟩]
        [] [⟨"Ivanov", "", 20, true, 100, 100, "Ivanov_20_True"⟩] [] := by
  constructor <;> rfl

/-- C7 (amended): at a midnight check (hour 0) no detailed new-employee
notification and no full daily digest is ever composed; a due daily report
is replaced by the short "data refreshed" notice, while a new-employee
detection is suppressed with nothing sent in its place. -/
theorem midnight_suppression (calcDays : String → Int) (sendNew : Bool)
    (rt : TimeHM) (raw_data : List RawRecord) (store : Store)
    (lastDaily : Option Nat) (now : DateTimeM) (nowTs : Nat) (force : Option Bool)
    (hmid : now.hour = 0) :
    (∀ l, Message.newEmployeeNotice l ∉
      (check_medical_records calcDays sendNew rt raw_data store lastDaily now nowTs
        force).messages) ∧
    (∀ a b c, Message.dailyReport a b c ∉
      (check_medical_records calcDays sendNew rt raw_data store lastDaily now nowTs
        force).messages) ∧
    ((force = some true ∨ (force = none ∧
        should_send_daily_report lastDaily now rt = true)) →
      raw_data ≠ [] → normalize_employee_data calcDays raw_data ≠ [] →
      Message.dataUpdated ∈
        (check_medical_records calcDays sendNew rt raw_data store lastDaily now
          nowTs force).messages) := by
  refine ⟨?_, ?_, ?_⟩
  · intro l hl
    rcases check_midnight_message_shapes calcDays sendNew rt raw_data store
      lastDaily now nowTs force hmid with h | h <;> rw [h] at hl <;> simp at hl
  · intro a b c hl
    rcases check_midnight_message_shapes calcDays sendNew rt raw_data store
      lastDaily now nowTs force hmid with h | h <;> rw [h] at hl <;> simp at hl
  · intro hdue hraw hnorm
    rw [check_midnight_due_messages calcDays sendNew rt raw_data store lastDaily
      now nowTs force hmid hraw hnorm hdue]
    simp

/-- Witness for C7's amended theorem: a concrete midnight run with a forced
daily report and a fresh employee emits exactly the short notice. -/
theorem midnight_suppression_witness :
    (∀ l, Message.newEmployeeNotice l ∉
      (check_medical_records (fun _ => 0) true ⟨9, 0⟩
        [[("ФИО", "Ivanov"), ("Срок", "20")]] [] none ⟨5, 0, 0⟩ 100
        (some true)).messages) ∧
    (∀ a b c, Message.dailyReport a b c ∉
      (check_medical_records (fun _ => 0) true ⟨9, 0⟩
        [[("ФИО", "Ivanov"), ("Срок", "20")]] [] none ⟨5, 0, 0⟩ 100
        (some true)).messages) ∧
    ((some true = some true ∨ (some true = none ∧
        should_send_daily_report none ⟨5, 0, 0⟩ ⟨9, 0⟩ = true)) →
      [[("ФИО", "Ivanov"), ("Срок", "20")]] ≠ ([] : List RawRecord) →
      normalize_employee_data (fun _ => 0) [[("ФИО", "Ivanov"), ("Срок", "20")]] ≠ [] →
      Message.dataUpdated ∈
        (check_medical_records (fun _ => 0) true ⟨9, 0⟩
          [[("ФИО", "Ivanov"), ("Срок", "20")]] [] none ⟨5, 0, 0⟩ 100
          (some true)).messages) :=
  midnight_suppression (fun _ => 0) true ⟨9, 0⟩
    [[("ФИО", "Ivanov"), ("Срок", "20")]] [] none ⟨5, 0, 0⟩ 100 (some true) rfl
